import Mathlib

/-!
Verification of the l4-load-balancer repository (Go) against its
natural-language specification.

The Go sources are shallowly embedded: each package becomes a namespace,
each struct a `structure`, each method a pure function (stateful methods
return the updated state).  Machine integers are modelled as `Nat`/`Int`
with an explicit `% 2 ^ 64` where the source uses `uint64` arithmetic
(the round-robin counter).  Network effects (dialing, the pool's
liveness-probe read) are modelled by explicit environments recording what
the network would answer.
-/

set_option maxRecDepth 4096

namespace balancer

/-- Backend of internal/balancer/balancer.go: an address and a health flag. -/
structure Backend where
  Address : String
  Healthy : Bool
deriving DecidableEq

/-- The healthy sub-list, exactly the filter loop inside
RoundRobinAlgorithm.SelectBackend (algorithms.go lines 23-29): entries with
Healthy = true, in input order. -/
def healthyOf (backends : List Backend) : List Backend :=
  backends.filter (fun b => b.Healthy)

/-- The modulus of Go's uint64, the type of the round-robin counter. -/
def U64 : Nat := 2 ^ 64

/-- RoundRobinAlgorithm (algorithms.go lines 8-10): a single uint64 counter. -/
structure RoundRobinAlgorithm where
  counter : Nat
deriving DecidableEq

/-- NewRoundRobinAlgorithm (algorithms.go lines 13-15): counter starts at 0. -/
def NewRoundRobinAlgorithm : RoundRobinAlgorithm := { counter := 0 }

/-- SelectBackend (algorithms.go lines 18-37).  Empty input returns nil; the
input is filtered to its healthy entries; an empty filtered set returns nil;
otherwise the counter is atomically incremented FIRST (uint64, hence the
`% U64`) and the new value indexes the filtered list modulo its length.
Returns the selected backend (none models nil) and the algorithm state after
the call. -/
def RoundRobinAlgorithm.SelectBackend (rr : RoundRobinAlgorithm)
    (backends : List Backend) : Option Backend × RoundRobinAlgorithm :=
  if backends.length = 0 then (none, rr)
  else
    let healthy := healthyOf backends
    if healthy.length = 0 then (none, rr)
    else
      let counter := (rr.counter + 1) % U64
      (healthy.get? (counter % healthy.length), { counter := counter })

/-- LeastConnectionsAlgorithm (algorithms.go lines 40-42): no fields, the
per-backend connection tracking is an unwritten TODO. -/
structure LeastConnectionsAlgorithm

/-- LeastConnectionsAlgorithm.SelectBackend (algorithms.go lines 50-53):
the body is a TODO comment and `return nil`. -/
def LeastConnectionsAlgorithm.SelectBackend (lc : LeastConnectionsAlgorithm)
    (backends : List Backend) : Option Backend := none

/-- The observable per-connection dispatch steps named by the specification. -/
inductive DispatchAction where
  | closeClient
  | selectBackendStep
  | acquireBackendConn
  | spliceStreams
deriving DecidableEq

/-- handleConnection (balancer.go lines 55-59).  Its entire body is the
deferred conn.Close(); backend selection and proxying are TODO comments, so
the trace of actions performed on any accepted client connection is just the
close of the client socket. -/
def handleConnection (conn : Nat) : List DispatchAction :=
  [DispatchAction.closeClient]

end balancer

namespace backend

/-- Server (backend.go lines 9-15).  time.Time is modelled as an Int
(nanoseconds); the zero value is 0. -/
structure Server where
  Address : String
  Port : Int
  Healthy : Bool
  LastChecked : Int
deriving DecidableEq

/-- Manager (backend.go lines 17-20): the ordered slice of registered
servers. -/
structure Manager where
  servers : List Server
deriving DecidableEq

/-- NewManager (backend.go lines 23-27): empty registry. -/
def NewManager : Manager := { servers := [] }

/-- AddServer (backend.go lines 30-37): unconditionally appends a new server
with Healthy = false.  No duplicate check is performed. -/
def Manager.AddServer (m : Manager) (address : String) (port : Int) : Manager :=
  { servers := m.servers ++
      [{ Address := address, Port := port, Healthy := false, LastChecked := 0 }] }

/-- GetHealthyServers (backend.go lines 40-48). -/
def Manager.GetHealthyServers (m : Manager) : List Server :=
  m.servers.filter (fun s => s.Healthy)

/-- GetAllServers (backend.go lines 51-53): `return m.servers` hands out the
manager's internal []*Server itself, not a copy.  A *Server pointer is
modelled as the index of the registry cell it references, so the call
returns one reference per current server, in order. -/
def Manager.GetAllServers (m : Manager) : List Nat :=
  List.range m.servers.length

/-- Dereferencing a []*Server value under the manager state current at the
time of the read: pointer i yields cell i of the registry as it is NOW. -/
def Manager.readServers (m : Manager) (view : List Nat) : List Server :=
  view.filterMap (fun i => m.servers.get? i)

/-- The write `server.Healthy = b` that health.Checker.checkServer performs
through the shared *Server pointer (checker.go lines 63-74): cell i of the
registry is updated in place. -/
def Manager.setServerHealthy (m : Manager) (i : Nat) (b : Bool) : Manager :=
  match m.servers.get? i with
  | some s => { servers := m.servers.set i { s with Healthy := b } }
  | none => m

/-- The identity of a registered server: its (address, port) pair. -/
def Manager.identities (m : Manager) : List (String × Int) :=
  m.servers.map (fun s => (s.Address, s.Port))

/-- Adding a whole configuration: one AddServer call per (address, port). -/
def Manager.addAll (m : Manager) (l : List (String × Int)) : Manager :=
  l.foldl (fun acc ap => acc.AddServer ap.1 ap.2) m

/-- The duration Server.IsReachable (backend.go lines 61-68) passes to
net.DialTimeout: the fixed 5 * time.Second, in nanoseconds. -/
def serverDialTimeout : Int := 5 * 1000000000

end backend

namespace health

/-- Checker (checker.go lines 11-16): the configured interval and timeout,
as time.Duration (int64 nanoseconds). -/
structure Checker where
  interval : Int
  timeout : Int
deriving DecidableEq

/-- NewChecker (checker.go lines 19-26). -/
def NewChecker (interval timeout : Int) : Checker :=
  { interval := interval, timeout := timeout }

/-- The hard timeout a health probe of this checker actually runs with:
checkServer calls Server.IsReachable, which dials with the fixed
5 * time.Second of backend.go line 63.  The checker's own `timeout` field is
never read by any probe. -/
def Checker.probeTimeout (c : Checker) : Int := backend.serverDialTimeout

end health

namespace pool

/-- What the 1-millisecond-deadline read of isConnectionValid (pool.go lines
94-109) would yield on a connection, i.e. the state of the socket at probe
time.  `data`: the peer has sent unsolicited bytes, the read returns one byte
and err == nil.  `deadlineExpired`: the socket is open and idle, nothing to
read, the read blocks until the 1 ms deadline and returns a timeout error
(err != nil): this is the state of a healthy pooled connection.  `eof`: the
peer has closed, the read returns io.EOF (err != nil). -/
inductive ProbeOutcome where
  | data
  | deadlineExpired
  | eof
deriving DecidableEq

/-- A net.Conn to a backend, carrying what its liveness probe would observe. -/
structure Conn where
  id : Nat
  probe : ProbeOutcome
deriving DecidableEq

/-- The network as the pool sees it: the result of the n-th dial attempt
(counting from 0).  `some c` is a successful net.DialTimeout, `none` a dial
error. -/
structure NetEnv where
  dialer : Nat → Option Conn

/-- The two failure modes of Get (pool.go lines 73-88): the distinct
ErrPoolExhausted sentinel, or a dial error returned through. -/
inductive PoolError where
  | ErrPoolExhausted
  | dialFailure
deriving DecidableEq

/-- ConnectionPool (pool.go lines 10-17).  `connections` is the contents of
the buffered channel of capacity maxSize (front = next receive); `active` is
the int counter guarded by the mutex; `dials` is a ghost counter of dial
attempts, the "dial counter" of the specification's pooling property. -/
structure ConnectionPool where
  maxSize : Nat
  connections : List Conn
  active : Int
  dials : Nat
deriving DecidableEq

/-- NewConnectionPool (pool.go lines 20-26). -/
def NewConnectionPool (maxSize : Nat) : ConnectionPool :=
  { maxSize := maxSize, connections := [], active := 0, dials := 0 }

/-- createConnection (pool.go lines 73-88): fails with ErrPoolExhausted when
`active >= maxSize`, otherwise dials (bounded 5 s timeout); a successful dial
increments `active`. -/
def createConnection (env : NetEnv) (p : ConnectionPool) :
    Except PoolError Conn × ConnectionPool :=
  if (p.maxSize : Int) ≤ p.active then (Except.error PoolError.ErrPoolExhausted, p)
  else
    match env.dialer p.dials with
    | some c => (Except.ok c, { p with active := p.active + 1, dials := p.dials + 1 })
    | none => (Except.error PoolError.dialFailure, { p with dials := p.dials + 1 })

/-- isConnectionValid (pool.go lines 94-109): the probe read succeeds only in
the `data` state; on ANY read error (deadline expired on a healthy idle
socket included) the connection is closed and `active` decremented. -/
def ConnectionPool.isConnectionValid (p : ConnectionPool) (c : Conn) :
    Bool × ConnectionPool :=
  match c.probe with
  | ProbeOutcome.data => (true, p)
  | _ => (false, { p with active := p.active - 1 })

/-- Get (pool.go lines 28-41): receive an idle connection from the channel if
one is buffered; probe it, handing it out when the probe read succeeds and
dialing a replacement otherwise; with no idle connection, dial. -/
def ConnectionPool.Get (env : NetEnv) (p : ConnectionPool) :
    Except PoolError Conn × ConnectionPool :=
  match p.connections with
  | c :: rest =>
      let v := ConnectionPool.isConnectionValid { p with connections := rest } c
      if v.1 then (Except.ok c, v.2) else createConnection env v.2
  | [] => createConnection env p

/-- Put (pool.go lines 44-59): buffer the connection if the channel has a
free slot, otherwise close it and decrement `active`. -/
def ConnectionPool.Put (p : ConnectionPool) (c : Conn) : ConnectionPool :=
  if p.connections.length < p.maxSize then { p with connections := p.connections ++ [c] }
  else { p with active := p.active - 1 }

/-- The specification's pooling scenario: acquire, release the acquired
connection, acquire again, on one pool.  A failed first acquire just stops. -/
def getPutGet (env : NetEnv) (p : ConnectionPool) : ConnectionPool :=
  match ConnectionPool.Get env p with
  | (Except.ok c, p1) => (ConnectionPool.Get env (p1.Put c)).2
  | (Except.error _, p1) => p1

/-- A reachable backend whose pooled connections are healthy but idle: every
dial succeeds, and the probe read on any handed-back connection finds an open
socket with nothing buffered, so it runs into its 1 ms deadline. -/
def aliveIdleEnv : NetEnv :=
  { dialer := fun n => some { id := n, probe := ProbeOutcome.deadlineExpired } }

end pool

open balancer backend pool health

/-! ## Helper lemmas -/

/-- Characterisation of the selection a round-robin call returns. -/
lemma selectBackend_fst (rr : RoundRobinAlgorithm) (backends : List Backend) :
    (rr.SelectBackend backends).1 =
      if (healthyOf backends).length = 0 then none
      else (healthyOf backends).get?
        (((rr.counter + 1) % U64) % (healthyOf backends).length) := by
  unfold RoundRobinAlgorithm.SelectBackend
  by_cases h0 : backends.length = 0
  · have hb : backends = [] := List.length_eq_zero.mp h0
    subst hb
    simp [healthyOf]
  · by_cases h1 : (healthyOf backends).length = 0 <;> simp [h0, h1]

/-- Characterisation of the state a round-robin call leaves behind. -/
lemma selectBackend_snd (rr : RoundRobinAlgorithm) (backends : List Backend) :
    (rr.SelectBackend backends).2 =
      if (healthyOf backends).length = 0 then rr
      else { counter := (rr.counter + 1) % U64 } := by
  unfold RoundRobinAlgorithm.SelectBackend
  by_cases h0 : backends.length = 0
  · have hb : backends = [] := List.length_eq_zero.mp h0
    subst hb
    simp [healthyOf]
  · by_cases h1 : (healthyOf backends).length = 0 <;> simp [h0, h1]

/-- Reading every cell of a list through its indices gives the list back. -/
lemma filterMap_get?_range (l : List Server) :
    (List.range l.length).filterMap (fun i => l.get? i) = l := by
  induction l with
  | nil => simp
  | cons a t ih =>
      have : (a :: t).length = t.length + 1 := rfl
      rw [this, List.range_succ_eq_map, List.filterMap_cons]
      simp only [List.get?_cons_zero, List.filterMap_map]
      have h2 : (List.range t.length).filterMap ((fun i => (a :: t).get? i) ∘ Nat.succ)
          = (List.range t.length).filterMap (fun i => t.get? i) := by
        apply List.filterMap_congr
        intro i _
        rfl
      rw [h2, ih]

/-- setServerHealthy never changes the number of registered servers. -/
lemma setServerHealthy_length (m : Manager) (i : Nat) (b : Bool) :
    (m.setServerHealthy i b).servers.length = m.servers.length := by
  unfold Manager.setServerHealthy
  cases h : m.servers.get? i <;> simp

/-- One AddServer call appends exactly one identity. -/
lemma identities_AddServer (m : Manager) (a : String) (p : Int) :
    (m.AddServer a p).identities = m.identities ++ [(a, p)] := by
  simp [Manager.AddServer, Manager.identities]

/-- addAll appends exactly the identities it was given, in order. -/
lemma identities_addAll (m : Manager) (l : List (String × Int)) :
    (m.addAll l).identities = m.identities ++ l := by
  induction l generalizing m with
  | nil => simp [Manager.addAll]
  | cons ap t ih =>
      have h1 : m.addAll (ap :: t) = (m.AddServer ap.1 ap.2).addAll t := rfl
      rw [h1, ih, identities_AddServer]
      simp

/-! ## Claim C1 -/

/-- Claim C1 (code bug evidence): handleConnection performs only the deferred
close of the client connection; no accepted connection ever reaches the
SelectBackend, AcquireBackendConn or Splice stage. -/
theorem c1_handle_connection_only_closes (conn : Nat) :
    handleConnection conn = [DispatchAction.closeClient]
    ∧ DispatchAction.selectBackendStep ∉ handleConnection conn
    ∧ DispatchAction.acquireBackendConn ∉ handleConnection conn
    ∧ DispatchAction.spliceStreams ∉ handleConnection conn := by
  refine ⟨rfl, ?_, ?_, ?_⟩ <;> simp [handleConnection]

/-! ## Claim C2 -/

/-- Claim C2 (code bug evidence): on a fresh pool of capacity 2 against a
reachable backend whose connections stay healthy but idle, acquire - release -
acquire performs 2 dials, not the 1 dial the claim states: the liveness
probe's 1 ms read deadline expires on the healthy idle socket, err is non-nil
and the pooled connection is discarded and replaced by a fresh dial. -/
theorem c2_pool_reuse_dials_twice :
    (pool.getPutGet pool.aliveIdleEnv (pool.NewConnectionPool 2)).dials = 2
    ∧ (pool.getPutGet pool.aliveIdleEnv (pool.NewConnectionPool 2)).dials ≠ 1 := by
  constructor <;> decide

/-! ## Claim C3 -/

/-- Claim C3: round-robin SelectBackend returns none exactly when the
healthy-filtered subset of its input is empty, and any backend it does return
has Healthy = true. -/
theorem c3_round_robin_none_iff_no_healthy (rr : RoundRobinAlgorithm)
    (backends : List Backend) :
    ((rr.SelectBackend backends).1 = none ↔ healthyOf backends = [])
    ∧ ∀ b : Backend, (rr.SelectBackend backends).1 = some b → b.Healthy = true := by
  rw [selectBackend_fst]
  by_cases h1 : (healthyOf backends).length = 0
  · constructor
    · simp [h1, List.length_eq_zero.mp h1]
    · intro b hb
      simp [h1] at hb
  · have hpos : 0 < (healthyOf backends).length := Nat.pos_of_ne_zero h1
    have hidx : ((rr.counter + 1) % U64) % (healthyOf backends).length
        < (healthyOf backends).length := Nat.mod_lt _ hpos
    constructor
    · rw [if_neg h1, List.get?_eq_get hidx]
      constructor
      · intro h
        exact absurd h (by simp)
      · intro h
        exact absurd (List.length_eq_zero.mpr h) h1
    · intro b hb
      rw [if_neg h1, List.get?_eq_get hidx] at hb
      have hmem : (healthyOf backends).get ⟨_, hidx⟩ ∈ healthyOf backends :=
        List.get_mem _ _ _
      have hb' : b ∈ healthyOf backends := by
        cases hb
        exact hmem
      exact (List.mem_filter.mp hb').2

def demoDead : List Backend := [{ Address := "d1", Healthy := false }]

def demoMixed : List Backend :=
  [{ Address := "u1", Healthy := false }, { Address := "h1", Healthy := true }]

/-- Claim C3 witness: a concrete all-unhealthy list yields none, and the
backend returned on a concrete mixed list is healthy. -/
theorem c3_witness :
    (NewRoundRobinAlgorithm.SelectBackend demoDead).1 = none
    ∧ ({ Address := "h1", Healthy := true } : Backend).Healthy = true :=
  ⟨(c3_round_robin_none_iff_no_healthy NewRoundRobinAlgorithm demoDead).1.mpr rfl,
   (c3_round_robin_none_iff_no_healthy NewRoundRobinAlgorithm demoMixed).2 _ rfl⟩

/-! ## Claim C5 -/

/-- Claim C5 (code bug evidence): with the repository's own integration-test
configuration (interval 500 ms, timeout 1 s), the probe dials with the fixed
5 s of Server.IsReachable - not shorter than the interval, and not the
configured timeout. -/
theorem c5_probe_ignores_configured_timeout :
    Checker.probeTimeout (NewChecker 500000000 1000000000) = 5000000000
    ∧ ¬ (Checker.probeTimeout (NewChecker 500000000 1000000000)
          < (NewChecker 500000000 1000000000).interval)
    ∧ Checker.probeTimeout (NewChecker 500000000 1000000000)
        ≠ (NewChecker 500000000 1000000000).timeout := by
  refine ⟨rfl, by decide, by decide⟩

/-! ## Claim C6 -/

def demoManagerC6 : Manager := NewManager.AddServer "localhost" 8081

/-- Claim C6 counterexample: on a registry with one server, the value
GetAllServers returned before a health-flag update reads back differently
after the update - the returned collection is a live view through the shared
*Server pointers, not a copy. -/
theorem c6_counterexample :
    (demoManagerC6.setServerHealthy 0 true).readServers demoManagerC6.GetAllServers
      ≠ demoManagerC6.readServers demoManagerC6.GetAllServers := by
  decide

/-- Claim C6 (amended): the collection GetAllServers returns is a live view:
reading it after a health-flag update yields the UPDATED registry contents;
a later AddServer, on the other hand, only appends, so the old view still
reads the original servers. -/
theorem c6_get_all_servers_is_live_view (m : Manager) (i : Nat) (b : Bool)
    (a : String) (p : Int) :
    (m.setServerHealthy i b).readServers m.GetAllServers
        = (m.setServerHealthy i b).servers
    ∧ (m.AddServer a p).readServers m.GetAllServers = m.servers := by
  constructor
  · have hlen : m.servers.length = (m.setServerHealthy i b).servers.length :=
      (setServerHealthy_length m i b).symm
    unfold Manager.readServers Manager.GetAllServers
    rw [hlen, filterMap_get?_range]
  · unfold Manager.readServers Manager.GetAllServers Manager.AddServer
    have h1 : ∀ j ∈ List.range m.servers.length,
        (m.servers ++
          [({ Address := a, Port := p, Healthy := false, LastChecked := 0 } : Server)]).get? j
          = m.servers.get? j := by
      intro j hj
      exact List.get?_append (List.mem_range.mp hj)
    rw [List.filterMap_congr h1, filterMap_get?_range]

/-! ## Claim C7 -/

/-- Claim C7 counterexample: AddServer performs no duplicate check, so adding
the same (address, port) twice leaves the registry with two backends of the
same identity. -/
theorem c7_counterexample :
    ¬ ((NewManager.AddServer "localhost" 8081).AddServer
        "localhost" 8081).identities.Nodup := by
  decide

/-- Claim C7 (amended): the registry holds no duplicate identities after a
sequence of AddServer calls exactly as long as the added (address, port)
pairs are themselves pairwise distinct - AddServer itself never deduplicates. -/
theorem c7_distinct_adds_no_duplicates (l : List (String × Int)) (h : l.Nodup) :
    (NewManager.addAll l).identities.Nodup := by
  rw [identities_addAll]
  simpa [NewManager, Manager.identities] using h

/-- Claim C7 witness: two distinct (address, port) pairs produce a
duplicate-free registry. -/
theorem c7_witness :
    ([("localhost", (8081 : Int)), ("localhost", 8082)] : List (String × Int)).Nodup
    ∧ (NewManager.addAll
        [("localhost", (8081 : Int)), ("localhost", 8082)]).identities.Nodup :=
  ⟨by decide, c7_distinct_adds_no_duplicates _ (by decide)⟩

/-! ## Claim C8 -/

/-- Claim C8: under the pool invariant active <= maxSize, Get fails with
ErrPoolExhausted exactly when the active count has reached maxSize and no
idle connection is buffered; and once all maxSize connections are
outstanding, releasing any one connection makes the next acquire succeed
(the backend being reachable). -/
theorem c8_pool_exhausted_iff (env : NetEnv) (p : ConnectionPool) (c : Conn)
    (hinv : p.active ≤ (p.maxSize : Int)) :
    ((ConnectionPool.Get env p).1 = Except.error PoolError.ErrPoolExhausted
        ↔ p.connections = [] ∧ p.active = (p.maxSize : Int))
    ∧ (p.connections = [] → p.active = (p.maxSize : Int) → 0 < p.maxSize →
        (∀ n, (env.dialer n).isSome) →
        ∃ c2, (ConnectionPool.Get env (p.Put c)).1 = Except.ok c2) := by
  obtain ⟨ms, conns, act, dl⟩ := p
  dsimp only at hinv ⊢
  constructor
  · cases conns with
    | nil =>
        unfold ConnectionPool.Get createConnection
        dsimp only
        by_cases hge : (ms : Int) ≤ act
        · rw [if_pos hge]
          exact ⟨fun _ => ⟨rfl, le_antisymm hinv hge⟩, fun _ => rfl⟩
        · rw [if_neg hge]
          cases hd : env.dialer dl with
          | some c2 =>
              refine ⟨fun h => ?_, fun h => absurd h.2.ge hge⟩
              simp at h
          | none =>
              refine ⟨fun h => ?_, fun h => absurd h.2.ge hge⟩
              simp at h
    | cons c1 rest =>
        unfold ConnectionPool.Get ConnectionPool.isConnectionValid
        dsimp only
        cases hp : c1.probe with
        | data =>
            dsimp only
            exact ⟨fun h => by simp at h,
              fun h => absurd h.1 (List.cons_ne_nil _ _)⟩
        | deadlineExpired =>
            unfold createConnection
            dsimp only
            have hlt : ¬ ((ms : Int) ≤ act - 1) := by omega
            rw [if_neg hlt]
            cases hd : env.dialer dl with
            | some c2 =>
                exact ⟨fun h => by simp at h,
                  fun h => absurd h.1 (List.cons_ne_nil _ _)⟩
            | none =>
                exact ⟨fun h => by simp at h,
                  fun h => absurd h.1 (List.cons_ne_nil _ _)⟩
        | eof =>
            unfold createConnection
            dsimp only
            have hlt : ¬ ((ms : Int) ≤ act - 1) := by omega
            rw [if_neg hlt]
            cases hd : env.dialer dl with
            | some c2 =>
                exact ⟨fun h => by simp at h,
                  fun h => absurd h.1 (List.cons_ne_nil _ _)⟩
            | none =>
                exact ⟨fun h => by simp at h,
                  fun h => absurd h.1 (List.cons_ne_nil _ _)⟩
  · intro h1 h2 h3 hd
    subst h1
    have hput : ConnectionPool.Put { maxSize := ms, connections := [], active := act, dials := dl } c
        = { maxSize := ms, connections := [c], active := act, dials := dl } := by
      unfold ConnectionPool.Put
      dsimp only
      rw [if_pos (by simpa using h3)]
      simp
    rw [hput]
    unfold ConnectionPool.Get ConnectionPool.isConnectionValid
    dsimp only
    cases hp : c.probe with
    | data =>
        exact ⟨c, rfl⟩
    | deadlineExpired =>
        unfold createConnection
        dsimp only
        have hlt : ¬ ((ms : Int) ≤ act - 1) := by omega
        rw [if_neg hlt]
        cases hdd : env.dialer dl with
        | some c2 => exact ⟨c2, rfl⟩
        | none => exact absurd (hdd ▸ hd dl) (by simp)
    | eof =>
        unfold createConnection
        dsimp only
        have hlt : ¬ ((ms : Int) ≤ act - 1) := by omega
        rw [if_neg hlt]
        cases hdd : env.dialer dl with
        | some c2 => exact ⟨c2, rfl⟩
        | none => exact absurd (hdd ▸ hd dl) (by simp)

def demoEnvC8 : NetEnv :=
  { dialer := fun n => some { id := 100 + n, probe := ProbeOutcome.deadlineExpired } }

def demoPoolC8 : ConnectionPool :=
  { maxSize := 1, connections := [], active := 1, dials := 1 }

def demoConnC8 : Conn := { id := 0, probe := ProbeOutcome.deadlineExpired }

/-- Claim C8 witness: a maxSize = 1 pool with its one connection outstanding
rejects a further acquire with ErrPoolExhausted, and accepts an acquire after
that connection is released. -/
theorem c8_witness :
    ((ConnectionPool.Get demoEnvC8 demoPoolC8).1
        = Except.error PoolError.ErrPoolExhausted)
    ∧ ∃ c2, (ConnectionPool.Get demoEnvC8 (demoPoolC8.Put demoConnC8)).1
        = Except.ok c2 :=
  ⟨(c8_pool_exhausted_iff demoEnvC8 demoPoolC8 demoConnC8 (by decide)).1.mpr
      ⟨rfl, rfl⟩,
   (c8_pool_exhausted_iff demoEnvC8 demoPoolC8 demoConnC8 (by decide)).2
      rfl rfl (by decide) (fun n => rfl)⟩

/-! ## Claim C9 -/

/-- Claim C9: the least-connections strategy selects no backend whatsoever -
SelectBackend returns nil for every input, non-empty all-healthy lists
included. -/
theorem c9_least_connections_always_none (lc : LeastConnectionsAlgorithm)
    (backends : List Backend) : lc.SelectBackend backends = none := rfl

/-! ## Sequential round-robin runs (claims C4 and C10) -/

/-- The results of m sequential SelectBackend calls on a fixed input list,
threading the algorithm state call to call. -/
def runSelect (backends : List Backend) : RoundRobinAlgorithm → Nat → List (Option Backend)
  | _, 0 => []
  | rr, Nat.succ m =>
      (rr.SelectBackend backends).1 ::
        runSelect backends (rr.SelectBackend backends).2 m

/-- The algorithm state after i sequential calls from a fresh instance. -/
def rrStateAfter (backends : List Backend) : Nat → RoundRobinAlgorithm
  | 0 => NewRoundRobinAlgorithm
  | Nat.succ i => ((rrStateAfter backends i).SelectBackend backends).2

/-- The result of the (i+1)-th sequential call from a fresh instance. -/
def callResult (backends : List Backend) (i : Nat) : Option Backend :=
  ((rrStateAfter backends i).SelectBackend backends).1

/-- How many of the first m sequential selections from a fresh instance
returned backend b. -/
def selectionCount (backends : List Backend) (m : Nat) (b : Backend) : Nat :=
  (runSelect backends NewRoundRobinAlgorithm m).countP (fun r => decide (r = some b))

/-- Number of calls i in [1, m] whose wrapped counter value selects filtered
index j: the counter of call i is i % U64, reduced modulo the healthy count n. -/
def wrapCount (n j : Nat) : Nat → Nat
  | 0 => 0
  | Nat.succ m => wrapCount n j m + (if ((m + 1) % U64) % n = j then 1 else 0)

/-- Number of i in [1, m] with i % n = j (the un-wrapped index count). -/
def resCount (n j : Nat) : Nat → Nat
  | 0 => 0
  | Nat.succ m => resCount n j m + (if (m + 1) % n = j then 1 else 0)

lemma u64_one_lt : 1 < U64 := by norm_num [U64]

lemma add_one_mod_u64 (i : Nat) : (i % U64 + 1) % U64 = (i + 1) % U64 := by
  conv_rhs => rw [Nat.add_mod]
  rw [Nat.mod_eq_of_lt u64_one_lt]

/-- Full characterisation of a round-robin call on a non-empty healthy set. -/
lemma selectBackend_eq (rr : RoundRobinAlgorithm) (backends : List Backend)
    (hne : (healthyOf backends).length ≠ 0) :
    rr.SelectBackend backends
      = ((healthyOf backends).get?
            (((rr.counter + 1) % U64) % (healthyOf backends).length),
         { counter := (rr.counter + 1) % U64 }) := by
  have h0 : backends.length ≠ 0 := by
    intro h
    exact hne (by simp [healthyOf, List.length_eq_zero.mp h])
  unfold RoundRobinAlgorithm.SelectBackend
  simp only [if_neg h0]
  simp only [if_neg hne]

lemma rrStateAfter_counter (backends : List Backend)
    (hne : (healthyOf backends).length ≠ 0) :
    ∀ i, rrStateAfter backends i = { counter := i % U64 } := by
  intro i
  induction i with
  | zero =>
      show NewRoundRobinAlgorithm = _
      rw [NewRoundRobinAlgorithm]
      congr 1
  | succ i ih =>
      show ((rrStateAfter backends i).SelectBackend backends).2 = _
      rw [ih, selectBackend_eq _ _ hne]
      dsimp only
      rw [add_one_mod_u64]

/-- A sequential run started at counter value c % U64 selects, at its k-th
call (k counted from 0), the healthy entry at wrapped index c + k + 1. -/
lemma runSelect_eq_map (backends : List Backend)
    (hne : (healthyOf backends).length ≠ 0) :
    ∀ (m c : Nat), runSelect backends { counter := c % U64 } m
      = (List.range m).map (fun k =>
          (healthyOf backends).get?
            (((c + k + 1) % U64) % (healthyOf backends).length)) := by
  intro m
  induction m with
  | zero => intro c; rfl
  | succ m ih =>
      intro c
      show ((RoundRobinAlgorithm.SelectBackend _ backends).1 ::
          runSelect backends (RoundRobinAlgorithm.SelectBackend _ backends).2 m) = _
      rw [selectBackend_eq _ _ hne]
      dsimp only
      rw [add_one_mod_u64, ih (c + 1), List.range_succ_eq_map]
      simp only [List.map_cons, List.map_map]
      congr 1
      apply List.map_congr_left
      intro k hk
      simp only [Function.comp_apply]
      have harg : c + 1 + k + 1 = c + (k + 1) + 1 := by omega
      rw [harg]

/-- Selection counts reduce to the index-residue count wrapCount. -/
lemma selectionCount_eq_wrapCount (backends : List Backend)
    (hnd : (healthyOf backends).Nodup) (j : Nat)
    (hj : j < (healthyOf backends).length) (m : Nat) :
    selectionCount backends m ((healthyOf backends).get ⟨j, hj⟩)
      = wrapCount (healthyOf backends).length j m := by
  have hne : (healthyOf backends).length ≠ 0 := by omega
  unfold selectionCount
  have h0 : (NewRoundRobinAlgorithm : RoundRobinAlgorithm) = { counter := 0 % U64 } := by
    rw [NewRoundRobinAlgorithm]
    congr 1
  rw [h0, runSelect_eq_map backends hne m 0, List.countP_map]
  simp only [Nat.zero_add, Function.comp]
  induction m with
  | zero => rfl
  | succ m ih =>
      rw [List.range_succ, List.countP_append, ih, wrapCount]
      congr 1
      simp only [List.countP_cons, List.countP_nil, Nat.zero_add, Function.comp_apply]
      have hidx : ((m + 1) % U64) % (healthyOf backends).length
          < (healthyOf backends).length := Nat.mod_lt _ (by omega)
      simp only [decide_eq_true_eq]
      simp only [List.get?_eq_get hidx]
      by_cases h : ((m + 1) % U64) % (healthyOf backends).length = j
      · subst h
        rw [if_pos rfl, if_pos rfl]
      · rw [if_neg (fun heq => h (congrArg Fin.val
            (hnd.get_inj_iff.mp (Option.some.inj heq)))), if_neg h]

lemma wrapCount_eq_resCount (n j : Nat) : ∀ m, m < U64 → wrapCount n j m = resCount n j m := by
  intro m
  induction m with
  | zero => intro _; rfl
  | succ m ih =>
      intro hm
      rw [wrapCount, resCount, ih (by omega)]
      congr 1
      rw [Nat.mod_eq_of_lt hm]

lemma resCount_zero_eq (n : Nat) (hn : 0 < n) : ∀ m, resCount n 0 m = m / n := by
  intro m
  induction m with
  | zero => simp [resCount]
  | succ m ih =>
      rw [resCount, ih, Nat.succ_div]
      congr 1
      simp only [Nat.dvd_iff_mod_eq_zero]

lemma resCount_pos_eq (n j : Nat) (hj1 : 1 ≤ j) (hjn : j < n) :
    ∀ m, resCount n j m = (m + (n - j)) / n := by
  have hn : 0 < n := by omega
  intro m
  induction m with
  | zero =>
      have h1 : (n - j) / n = 0 := Nat.div_eq_of_lt (by omega)
      simp [resCount, h1]
  | succ m ih =>
      rw [resCount, ih]
      have harr : m + 1 + (n - j) = (m + (n - j)) + 1 := by omega
      rw [harr, Nat.succ_div]
      congr 1
      have key : (m + 1) % n = j ↔ n ∣ (m + (n - j) + 1) := by
        constructor
        · intro h
          have hmod : Nat.ModEq n (m + 1) j := by
            show (m + 1) % n = j % n
            rw [h, Nat.mod_eq_of_lt hjn]
          have h2 : Nat.ModEq n (m + 1 + (n - j)) (j + (n - j)) :=
            hmod.add_right (n - j)
          have h3 : j + (n - j) = n := by omega
          rw [h3] at h2
          have h4 : Nat.ModEq n (m + 1 + (n - j)) 0 :=
            h2.trans ((Nat.modEq_zero_iff_dvd).mpr dvd_rfl)
          have h5 : n ∣ (m + 1 + (n - j)) := (Nat.modEq_zero_iff_dvd).mp h4
          exact (show m + (n - j) + 1 = m + 1 + (n - j) by omega) ▸ h5
        · intro h
          have h6 : Nat.ModEq n (m + 1 + (n - j)) 0 :=
            (Nat.modEq_zero_iff_dvd).mpr
              ((show m + (n - j) + 1 = m + 1 + (n - j) by omega) ▸ h)
          have h7 : Nat.ModEq n (j + (n - j)) 0 := by
            rw [show j + (n - j) = n by omega]
            exact (Nat.modEq_zero_iff_dvd).mpr dvd_rfl
          have h8 : Nat.ModEq n (m + 1 + (n - j)) (j + (n - j)) :=
            h6.trans h7.symm
          have h9 : Nat.ModEq n (m + 1) j := Nat.ModEq.add_right_cancel' (n - j) h8
          have h10 : (m + 1) % n = j % n := h9
          rw [h10, Nat.mod_eq_of_lt hjn]
      by_cases h : (m + 1) % n = j
      · rw [if_pos h, if_pos (key.mp h)]
      · rw [if_neg h, if_neg (fun hd => h (key.mpr hd))]

/-- Each residue class among m consecutive counter values is hit at least
floor(m/n) and at most ceil(m/n) = (m + n - 1) / n times. -/
lemma resCount_bounds (n j m : Nat) (hn : 0 < n) (hj : j < n) :
    m / n ≤ resCount n j m ∧ resCount n j m ≤ (m + n - 1) / n := by
  by_cases h0 : j = 0
  · subst h0
    rw [resCount_zero_eq n hn m]
    exact ⟨le_refl _, Nat.div_le_div_right (by omega)⟩
  · have hj1 : 1 ≤ j := by omega
    rw [resCount_pos_eq n j hj1 hj m]
    exact ⟨Nat.div_le_div_right (by omega), Nat.div_le_div_right (by omega)⟩

/-- wrapCount is periodic in the call index with period U64. -/
lemma wrapCount_add_period (n j : Nat) :
    ∀ m, wrapCount n j (U64 + m) = wrapCount n j U64 + wrapCount n j m := by
  intro m
  induction m with
  | zero =>
      have h0 : wrapCount n j 0 = 0 := rfl
      rw [Nat.add_zero, h0, Nat.add_zero]
  | succ m ih =>
      have h1 : U64 + (m + 1) = (U64 + m) + 1 := by omega
      rw [h1, wrapCount, ih, wrapCount]
      have h2 : (U64 + m + 1) % U64 = (m + 1) % U64 := by
        conv_lhs => rw [show U64 + m + 1 = U64 + (m + 1) by omega]
        exact Nat.add_mod_left U64 (m + 1)
      rw [h2, Nat.add_assoc]

/-- The full first wrap period hits residue 0 once more than the first
U64 - 1 calls do (the call whose counter wraps to 0 selects index 0). -/
lemma wrapCount_period_zero (n : Nat) (hn : 0 < n) :
    wrapCount n 0 U64 = resCount n 0 (U64 - 1) + 1 := by
  have hpos : 0 < U64 := by norm_num [U64]
  have h1 : U64 = (U64 - 1) + 1 := by omega
  conv_lhs => rw [h1]
  rw [wrapCount, wrapCount_eq_resCount n 0 (U64 - 1) (by omega)]
  congr 1

/-! ## Claim C4 -/

/-- Claim C4 (amended): for runs of M < U64 sequential calls (no counter
wrap), every healthy filtered index is selected at least floor(M/N) and at
most ceil(M/N) times. -/
theorem c4_round_robin_fair_below_wrap (backends : List Backend) (M j : Nat)
    (hN : 0 < (healthyOf backends).length)
    (hNM : (healthyOf backends).length ≤ M)
    (hM : M < U64)
    (hnd : (healthyOf backends).Nodup)
    (hj : j < (healthyOf backends).length) :
    M / (healthyOf backends).length
      ≤ selectionCount backends M ((healthyOf backends).get ⟨j, hj⟩)
    ∧ selectionCount backends M ((healthyOf backends).get ⟨j, hj⟩)
      ≤ (M + (healthyOf backends).length - 1) / (healthyOf backends).length := by
  rw [selectionCount_eq_wrapCount backends hnd j hj M,
    wrapCount_eq_resCount _ _ M hM]
  exact resCount_bounds _ _ M hN hj

def backends2 : List Backend :=
  [{ Address := "a1", Healthy := true }, { Address := "a2", Healthy := true }]

/-- Claim C4 witness: two healthy backends, five sequential calls - each is
selected at least 2 = floor(5/2) and at most 3 = ceil(5/2) times. -/
theorem c4_witness :
    0 < (healthyOf backends2).length
    ∧ (healthyOf backends2).length ≤ 5
    ∧ (5 : Nat) < U64
    ∧ (healthyOf backends2).Nodup
    ∧ 5 / (healthyOf backends2).length
        ≤ selectionCount backends2 5 ((healthyOf backends2).get ⟨0, by decide⟩)
    ∧ selectionCount backends2 5 ((healthyOf backends2).get ⟨0, by decide⟩)
        ≤ (5 + (healthyOf backends2).length - 1) / (healthyOf backends2).length :=
  ⟨by decide, by decide, by decide, by decide,
   (c4_round_robin_fair_below_wrap backends2 5 0 (by decide) (by decide)
      (by decide) (by decide) (by decide)).1,
   (c4_round_robin_fair_below_wrap backends2 5 0 (by decide) (by decide)
      (by decide) (by decide) (by decide)).2⟩

def backends3 : List Backend :=
  [{ Address := "s1", Healthy := true }, { Address := "s2", Healthy := true },
   { Address := "s3", Healthy := true }]

/-- Claim C4 counterexample: with 3 healthy backends and M = 2 * U64 >= 3
sequential calls, the uint64 counter wraps and the backend at filtered
index 0 is selected strictly more than ceil(M/3) = (M + 3 - 1) / 3 times,
refuting the claim's bound for unrestricted M. -/
theorem c4_counterexample :
    (healthyOf backends3).length ≤ U64 + U64
    ∧ selectionCount backends3 (U64 + U64) ((healthyOf backends3).get ⟨0, by decide⟩)
        > (U64 + U64 + (healthyOf backends3).length - 1) / (healthyOf backends3).length := by
  constructor
  · show (3 : Nat) ≤ U64 + U64
    norm_num [U64]
  · have hsel := selectionCount_eq_wrapCount backends3 (by decide) 0 (by decide) (U64 + U64)
    rw [hsel]
    show wrapCount 3 0 (U64 + U64) > (U64 + U64 + 3 - 1) / 3
    rw [wrapCount_add_period 3 0 U64, wrapCount_period_zero 3 (by norm_num),
      resCount_zero_eq 3 (by norm_num) (U64 - 1)]
    norm_num [U64]

/-! ## Claim C10 -/

/-- Below the wrap, the (i+1)-th sequential call from a fresh instance
selects the healthy entry at filtered index (i + 1) % N. -/
lemma callResult_eq (backends : List Backend)
    (hne : (healthyOf backends).length ≠ 0) (i : Nat) (hi : i + 1 < U64) :
    callResult backends i
      = (healthyOf backends).get? ((i + 1) % (healthyOf backends).length) := by
  unfold callResult
  rw [rrStateAfter_counter backends hne i, selectBackend_eq _ _ hne]
  dsimp only
  rw [add_one_mod_u64, Nat.mod_eq_of_lt hi]

/-- Claim C10: a fresh round-robin instance over N >= 2 fixed healthy
backends returns filtered index 1 on its first call, cycles through
index (i + 1) % N on the (i+1)-th call, never yields filtered index 0
before the N-th call, and yields it exactly on the N-th call. -/
theorem c10_first_call_skips_first_backend (backends : List Backend) (i : Nat)
    (h2 : 2 ≤ (healthyOf backends).length)
    (hnd : (healthyOf backends).Nodup)
    (hU : (healthyOf backends).length < U64)
    (hi : i + 1 < U64) :
    callResult backends i
        = (healthyOf backends).get? ((i + 1) % (healthyOf backends).length)
    ∧ callResult backends 0 = (healthyOf backends).get? 1
    ∧ (i + 1 < (healthyOf backends).length →
        callResult backends i ≠ (healthyOf backends).get? 0)
    ∧ callResult backends ((healthyOf backends).length - 1)
        = (healthyOf backends).get? 0 := by
  have hne : (healthyOf backends).length ≠ 0 := by omega
  refine ⟨callResult_eq backends hne i hi, ?_, ?_, ?_⟩
  · rw [callResult_eq backends hne 0 (by omega)]
    congr 1
    exact Nat.mod_eq_of_lt (by omega)
  · intro hiN
    rw [callResult_eq backends hne i hi, Nat.mod_eq_of_lt hiN]
    have h0 : (0 : Nat) < (healthyOf backends).length := by omega
    rw [List.get?_eq_get hiN, List.get?_eq_get h0]
    intro heq
    have heq2 : (healthyOf backends).get ⟨i + 1, hiN⟩
        = (healthyOf backends).get ⟨0, h0⟩ := Option.some.inj heq
    have hval : i + 1 = 0 := by
      simpa using congrArg Fin.val (hnd.get_inj_iff.mp heq2)
    omega
  · rw [callResult_eq backends hne ((healthyOf backends).length - 1) (by omega)]
    congr 1
    rw [show (healthyOf backends).length - 1 + 1 = (healthyOf backends).length
      by omega]
    exact Nat.mod_self _

/-- Claim C10 witness: two healthy backends, concrete calls - the first call
returns filtered index 1, the third call returns index (2 + 1) % 2, and the
second call (call number N = 2) returns index 0. -/
theorem c10_witness :
    callResult backends2 2
        = (healthyOf backends2).get? ((2 + 1) % (healthyOf backends2).length)
    ∧ callResult backends2 0 = (healthyOf backends2).get? 1
    ∧ (2 + 1 < (healthyOf backends2).length →
        callResult backends2 2 ≠ (healthyOf backends2).get? 0)
    ∧ callResult backends2 ((healthyOf backends2).length - 1)
        = (healthyOf backends2).get? 0 :=
  c10_first_call_skips_first_backend backends2 2 (by decide) (by decide)
    (by decide) (by decide)
